import Mathlib

/-!
Verification of the adaptive workload placement control plane: the GreedyLB
placer, the RefineLB placer, and the workload pattern detector.

The embedding works over exact rationals for all resource quantities; strings
are lists of characters.  Fallible operations (a Python exception while parsing
a resource string, a failed node-usage lookup) are modelled with Option: a
none result corresponds to the exception path of the original code, which the
callers translate into a zero score, a skipped node, or an unbound pod exactly
as the source does.
-/

namespace CcnCep

abbrev Str := List Char

/-! ## Resource-string parsing (shared helpers of both placers) -/

/-- Numeric value of a digit string, most significant digit first. -/
def natOfDigits (l : Str) : ℕ :=
  l.foldl (fun n c => n * 10 + (c.toNat - 48)) 0

def allDigits (l : Str) : Bool := l.all (fun c => c.isDigit)

/-- Decimal-literal recogniser: integer part, fractional digits, and the number
of fractional digits.  Returns none on anything that is not a plain decimal
literal; this models the ValueError raised by the float conversion. -/
def parseFloatN (s : Str) : Option (ℕ × ℕ × ℕ) :=
  let intPart := s.takeWhile (fun c => c.isDigit)
  let rest := s.dropWhile (fun c => c.isDigit)
  match rest with
  | [] => if intPart = [] then none else some (natOfDigits intPart, 0, 0)
  | '.' :: frac =>
    if allDigits frac ∧ (intPart ≠ [] ∨ frac ≠ []) then
      some (natOfDigits intPart, natOfDigits frac, frac.length)
    else none
  | _ => none

/-- The float conversion used by the parsers, as an exact rational. -/
def parseFloat (s : Str) : Option ℚ :=
  (parseFloatN s).map (fun t => (t.1 : ℚ) + (t.2.1 : ℚ) / 10 ^ t.2.2)

/-- Does the second string end with the first, checked on reversed lists. -/
def takesFrom : Str → Str → Bool
  | [], _ => true
  | _ :: _, [] => false
  | a :: as, b :: bs => a == b && takesFrom as bs

def endsWithChars (suf s : Str) : Bool := takesFrom suf.reverse s.reverse

/-- Kubernetes CPU quantity to millicores: m suffix is millicores, n suffix is
nanocores divided by one million, no suffix is whole cores times 1000.  The
empty string parses to 0. -/
def parse_cpu (s : Str) : Option ℚ :=
  if s = [] then some 0
  else if endsWithChars ['m'] s then parseFloat (s.take (s.length - 1))
  else if endsWithChars ['n'] s then
    (parseFloat (s.take (s.length - 1))).map (fun q => q / 1000000)
  else (parseFloat s).map (fun q => q * 1000)

/-- Memory unit suffixes in the order the source declares them: the binary
units before the decimal ones, so the longer suffixes are tried first. -/
def memUnits : List (Str × ℚ) :=
  [(['K','i'], 1024), (['M','i'], 1024 ^ 2), (['G','i'], 1024 ^ 3), (['T','i'], 1024 ^ 4),
   (['K'], 1000), (['M'], 1000 ^ 2), (['G'], 1000 ^ 3), (['T'], 1000 ^ 4)]

/-- Kubernetes memory quantity to bytes; the first matching suffix in
memUnits order wins, no suffix means raw bytes, empty string is 0. -/
def parse_memory (s : Str) : Option ℚ :=
  if s = [] then some 0
  else
    match memUnits.find? (fun u => endsWithChars u.1 s) with
    | some u => (parseFloat (s.take (s.length - u.1.length))).map (fun q => q * u.2)
    | none => parseFloat s

/-! ## Data model -/

/-- The requests map of one container: each key may be absent.  A pod whose
container has resources set to None or requests set to None is modelled by
the resources field of the container being none. -/
structure ResourceRequests where
  cpu : Option Str
  memory : Option Str
deriving DecidableEq

structure Container where
  resources : Option ResourceRequests
deriving DecidableEq

structure Pod where
  pname : Str
  nspace : Str
  phase : Str
  nodeName : Option Str
  containers : List Container
deriving DecidableEq

structure NodeCondition where
  ctype : Str
  status : Str
deriving DecidableEq

structure Node where
  name : Str
  conditions : List NodeCondition
  unschedulable : Option Bool
  allocatable_cpu : Option Str
  allocatable_memory : Option Str
deriving DecidableEq

/-- The cluster as both placers see it through the API server: the pods of all
namespaces.  Nodes are passed to the schedulers separately. -/
structure Cluster where
  pods : List Pod
deriving DecidableEq

structure NodeUsage where
  uname : Str
  cpu_allocatable : ℚ
  memory_allocatable : ℚ
  cpu_used : ℚ
  memory_used : ℚ
  cpu_available : ℚ
  memory_available : ℚ
  pod_count : ℕ
  cpu_utilization : ℚ
  memory_utilization : ℚ
deriving DecidableEq

structure PodRequest where
  cpu : ℚ
  memory : ℚ
deriving DecidableEq

/-! ## Node filtering (identical in both placers) -/

def node_is_ready (n : Node) : Bool :=
  n.conditions.any (fun c => c.ctype == "Ready".toList && c.status == "True".toList)

def node_is_schedulable (n : Node) : Bool :=
  match n.unschedulable with
  | some u => !u
  | none => true

/-- Nodes that are ready and not cordoned, in their original order. -/
def get_schedulable_nodes (nodes : List Node) : List Node :=
  nodes.filter (fun n => node_is_ready n && node_is_schedulable n)

/-! ## Node usage aggregation -/

/-- The pods the field selector returns for a node: assigned to it and in a
non-terminal phase. -/
def nonTerminalPodsOn (cl : Cluster) (nodeName : Str) : List Pod :=
  cl.pods.filter (fun p =>
    p.nodeName == some nodeName && p.phase != "Failed".toList && p.phase != "Succeeded".toList)

/-- Sum of the parsed resource requests over a list of pods; a missing key
falls back to the string 0 as in the source.  none models a parse exception
somewhere in the sum. -/
def podsUsage (pods : List Pod) : Option (ℚ × ℚ) :=
  pods.foldlM (fun acc p =>
    p.containers.foldlM (fun acc2 c =>
      match c.resources with
      | none => some acc2
      | some r => do
        let cv ← parse_cpu (r.cpu.getD ['0'])
        let mv ← parse_memory (r.memory.getD ['0'])
        some (acc2.1 + cv, acc2.2 + mv)) acc) ((0 : ℚ), (0 : ℚ))

/-- Allocatable, used and available resources of a node together with its pod
count and utilisation percentages; none models the exception path. -/
def get_node_resource_usage (cl : Cluster) (n : Node) : Option NodeUsage := do
  let ca ← parse_cpu (n.allocatable_cpu.getD ['0'])
  let ma ← parse_memory (n.allocatable_memory.getD ['0'])
  let pods := nonTerminalPodsOn cl n.name
  let used ← podsUsage pods
  some ⟨n.name, ca, ma, used.1, used.2, ca - used.1, ma - used.2, pods.length,
        used.1 / max ca 1 * 100, used.2 / max ma 1 * 100⟩

/-! ## GreedyLB placer -/

/-- Greedy per-node score: 70 percent weight on the fraction of CPU still
available, 30 percent on memory.  Unreadable nodes score 0. -/
def calculate_node_score (cl : Cluster) (n : Node) : ℚ :=
  match get_node_resource_usage cl n with
  | none => 0
  | some u =>
    u.cpu_available / max u.cpu_allocatable 1 * 70 +
      u.memory_available / max u.memory_allocatable 1 * 30

/-- One step of the greedy selection loop: keep the node with the strictly
best score seen so far. -/
def greedyFoldStep (cl : Cluster) (acc : Option Node × ℚ) (n : Node) : Option Node × ℚ :=
  if calculate_node_score cl n > acc.2 then (some n, calculate_node_score cl n) else acc

/-- Greedy selection: a single pass keeping the strictly best score, with the
best score initialised to minus one. -/
def greedy_select_best_node (cl : Cluster) (nodes : List Node) : Option Node :=
  (nodes.foldl (greedyFoldStep cl) ((none : Option Node), (-1 : ℚ))).1

/-- GreedyLB scheduling of one pod: filter nodes, pick the greedy best, bind.
The returned node is the binding target; none means the pod stays pending. -/
def greedy_schedule_pod (cl : Cluster) (nodes : List Node) (p : Pod) : Option Node :=
  let ns := get_schedulable_nodes nodes
  if ns = [] then none
  else greedy_select_best_node cl ns

/-! ## RefineLB placer -/

/-- Pod resource requests as RefineLB extracts them: per container the missing
key falls back to the strings 100m and 128Mi, and a zero sum falls back to
100 millicores and 128 mebibytes. -/
def get_pod_resource_requests (p : Pod) : Option PodRequest := do
  let sums ← p.containers.foldlM (fun (acc : ℚ × ℚ) c =>
    match c.resources with
    | none => some acc
    | some r => do
      let cv ← parse_cpu (r.cpu.getD "100m".toList)
      let mv ← parse_memory (r.memory.getD "128Mi".toList)
      some (acc.1 + cv, acc.2 + mv)) ((0 : ℚ), (0 : ℚ))
  some ⟨if sums.1 = 0 then 100 else sums.1,
        if sums.2 = 0 then 128 * 1024 * 1024 else sums.2⟩

/-- RefineLB multi-factor score.  An unreadable node or an infeasible
candidate scores 0.  The emptiness test on allUsage models the division by
zero the source would raise (and catch as a zero score) on an empty candidate
usage list; every caller passes a non-empty list. -/
def calculate_refined_score (cl : Cluster) (n : Node) (req : PodRequest)
    (allUsage : List NodeUsage) : ℚ :=
  match get_node_resource_usage cl n with
  | none => 0
  | some u =>
    if u.cpu_available < req.cpu ∨ u.memory_available < req.memory then 0
    else if allUsage.length = 0 then 0
    else
      let cpu_after := u.cpu_available - req.cpu
      let memory_after := u.memory_available - req.memory
      let cpu_ratio := cpu_after / max u.cpu_allocatable 1
      let memory_ratio := memory_after / max u.memory_allocatable 1
      let resources_score := (cpu_ratio * 0.5 + memory_ratio * 0.5) * 40
      let new_cpu_util := (u.cpu_used + req.cpu) / max u.cpu_allocatable 1 * 100
      let new_mem_util := (u.memory_used + req.memory) / max u.memory_allocatable 1 * 100
      let avg_cpu_util := (allUsage.map NodeUsage.cpu_utilization).sum / allUsage.length
      let avg_mem_util := (allUsage.map NodeUsage.memory_utilization).sum / allUsage.length
      let cpu_balance := 100 - |new_cpu_util - avg_cpu_util|
      let mem_balance := 100 - |new_mem_util - avg_mem_util|
      let balance_score := (cpu_balance * 0.5 + mem_balance * 0.5) * 0.3
      let pod_density := (1 - (u.pod_count : ℚ) / 110) * 20
      let cpu_target_score := 100 - |new_cpu_util - 65|
      let mem_target_score := 100 - |new_mem_util - 65|
      let target_score := (cpu_target_score * 0.5 + mem_target_score * 0.5) * 0.1
      resources_score + balance_score + pod_density + target_score

/-- Score one candidate and keep it only when its score is strictly
positive. -/
def refineScorePair (cl : Cluster) (req : PodRequest) (allUsage : List NodeUsage)
    (n : Node) : Option (Node × ℚ) :=
  if calculate_refined_score cl n req allUsage > 0 then
    some (n, calculate_refined_score cl n req allUsage)
  else none

/-- One step of taking the first highest-scoring candidate, as a stable
descending sort followed by taking the head does. -/
def bestPairStep (acc y : Node × ℚ) : Node × ℚ := if y.2 > acc.2 then y else acc

/-- RefineLB selection: score all candidates against the usage snapshot, keep
those with a strictly positive score, and take the first highest-scoring one
(a stable descending sort followed by taking the head).  A parse failure while
extracting the pod requests aborts the attempt, leaving the pod unbound. -/
def refine_select_best_node (cl : Cluster) (nodes : List Node) (p : Pod) : Option Node :=
  if nodes = [] then none
  else
    match get_pod_resource_requests p with
    | none => none
    | some req =>
      let allUsage := nodes.filterMap (get_node_resource_usage cl)
      if allUsage = [] then none
      else
        match nodes.filterMap (refineScorePair cl req allUsage) with
        | [] => none
        | x :: rest => some (rest.foldl bestPairStep x).1

/-- RefineLB scheduling of one pod; none means the pod stays pending. -/
def refine_schedule_pod (cl : Cluster) (nodes : List Node) (p : Pod) : Option Node :=
  let ns := get_schedulable_nodes nodes
  if ns = [] then none
  else refine_select_best_node cl ns p

/-! ## Pattern detector -/

def greedySchedulerName : Str := "greedylb-scheduler".toList
def refineSchedulerName : Str := "refinelb-scheduler".toList

/-- Per-step percentage changes over the steps whose predecessor is non-zero,
in window order. -/
def consecRates (h : List ℕ) : List ℚ :=
  (h.zip h.tail).filterMap (fun pr =>
    if 0 < pr.1 then some (((pr.2 : ℚ) - (pr.1 : ℚ)) / (pr.1 : ℚ) * 100) else none)

/-- Growth rate and trend over the sample window, exactly as the detector
computes them. -/
def calculate_growth_rate (h : List ℕ) : ℚ × Str :=
  if h.length < 2 then (0, "insufficient_data".toList)
  else
    let oldest := h.head?.getD 0
    let newest := h.getLast?.getD 0
    if oldest = 0 then
      if 0 < newest then (100, "startup".toList) else (0, "no_pods".toList)
    else
      let change := ((newest : ℚ) - (oldest : ℚ)) / (oldest : ℚ) * 100
      if 3 ≤ h.length then
        let rates := consecRates h
        if rates ≠ [] then (rates.sum / rates.length, "calculated".toList)
        else (change, "simple".toList)
      else (change, "simple".toList)

/-- Pattern classification from the absolute growth rate and the two
thresholds. -/
def detect_pattern (stableT linearT : ℚ) (rate : ℚ) : Str :=
  if |rate| < stableT then "stable".toList
  else if |rate| < linearT then "linear".toList
  else "exponential".toList

/-- Stable and linear route to GreedyLB, everything else to RefineLB. -/
def determine_optimal_scheduler (pattern : Str) : Str :=
  if pattern = "stable".toList ∨ pattern = "linear".toList then greedySchedulerName
  else refineSchedulerName

def systemNamespaces : List Str :=
  ["kube-system".toList, "kube-public".toList, "kube-node-lease".toList]

structure Deployment where
  dnspace : Str
  dname : Str
  schedulerName : Option Str
deriving DecidableEq

/-- One deployment under switch_scheduler: system namespaces are skipped, and
a deployment whose declared scheduler differs from the target is patched. -/
def patch_deployment (target : Str) (d : Deployment) : Deployment × Bool :=
  if d.dnspace ∈ systemNamespaces then (d, false)
  else if d.schedulerName ≠ some target then (Deployment.mk d.dnspace d.dname (some target), true)
  else (d, false)

/-- Patch every non-system deployment whose scheduler differs from the target;
returns the new deployments and how many were patched. -/
def switch_scheduler (target : Str) (deps : List Deployment) : List Deployment × ℕ :=
  (deps.map (fun d => (patch_deployment target d).1),
   (deps.filter (fun d => (patch_deployment target d).2)).length)

structure DetectorState where
  current_scheduler : Option Str
  current_pattern : Option Str
deriving DecidableEq

structure StepResult where
  state : DetectorState
  deployments : List Deployment
  patched : ℕ
  chosen : Option Str
deriving DecidableEq

/-- One decision step of the monitor loop over an already-updated sample
window: with fewer than two samples nothing happens; otherwise classify,
choose the placer, and when it differs from the cached one patch the
deployments and update the cache unconditionally (the switched-count guard of
the source always holds, the count being non-negative). -/
def detector_step (stableT linearT : ℚ) (window : List ℕ) (st : DetectorState)
    (deps : List Deployment) : StepResult :=
  if window.length < 2 then StepResult.mk st deps 0 none
  else
    let rate := (calculate_growth_rate window).1
    let pattern := detect_pattern stableT linearT rate
    let optimal := determine_optimal_scheduler pattern
    if some optimal ≠ st.current_scheduler then
      let sw := switch_scheduler optimal deps
      StepResult.mk (DetectorState.mk (some optimal) (some pattern)) sw.1 sw.2 (some optimal)
    else
      StepResult.mk st deps 0 (some optimal)

/-! ## Spec-side definitions used to state the claims -/

/-- Per-step percentage changes over all consecutive steps of the window, as
the spec describes the calculated trend. -/
def allStepRates (h : List ℕ) : List ℚ :=
  (h.zip h.tail).map (fun pr => ((pr.2 : ℚ) - (pr.1 : ℚ)) / (pr.1 : ℚ) * 100)

/-- Every consecutive predecessor of the window (every sample but the newest)
is non-zero. -/
def allPredPositive (h : List ℕ) : Prop := ∀ x ∈ h.dropLast, x ≠ 0

instance (h : List ℕ) : Decidable (allPredPositive h) := by
  unfold allPredPositive; infer_instance

/-! ## Helper lemmas -/

theorem parseFloat_eval (s : Str) (a b k : ℕ) (hp : parseFloatN s = some (a, b, k)) :
    parseFloat s = some ((a : ℚ) + (b : ℚ) / 10 ^ k) := by
  rw [parseFloat, hp]
  rfl

theorem zip_tail_fst_mem : ∀ (h : List ℕ) (pr : ℕ × ℕ), pr ∈ h.zip h.tail → pr.1 ∈ h.dropLast
  | [], pr, hm => by simp at hm
  | [_], pr, hm => by simp at hm
  | a :: b :: t, pr, hm => by
    simp only [List.tail_cons, List.zip_cons_cons] at hm
    rcases List.mem_cons.mp hm with hm | hm
    · subst hm; simp
    · have := zip_tail_fst_mem (b :: t) pr hm
      simpa using Or.inr this

theorem head_mem_dropLast (h : List ℕ) (hl : 2 ≤ h.length) : h.head?.getD 0 ∈ h.dropLast := by
  match h, hl with
  | a :: b :: t, _ => simp

theorem filterMap_eq_map_of {α β : Type _} :
    ∀ (l : List α) (f : α → Option β) (g : α → β),
      (∀ x ∈ l, f x = some (g x)) → l.filterMap f = l.map g
  | [], _, _, _ => rfl
  | x :: t, f, g, hfg => by
    rw [List.filterMap_cons, hfg x (by simp), List.map_cons,
      filterMap_eq_map_of t f g (fun y hy => hfg y (by simp [hy]))]

theorem parse_memory_suffix_case (s : Str) (u : Str × ℚ) (hne : ¬s = [])
    (hfind : memUnits.find? (fun v => endsWithChars v.1 s) = some u) :
    parse_memory s = (parseFloat (s.take (s.length - u.1.length))).map (fun q => q * u.2) := by
  rw [parse_memory, if_neg hne, hfind]

theorem parse_memory_nosuffix_case (s : Str) (hne : ¬s = [])
    (hfind : memUnits.find? (fun v => endsWithChars v.1 s) = none) :
    parse_memory s = parseFloat s := by
  rw [parse_memory, if_neg hne, hfind]

theorem endsKi_append_Mi (s : Str) : endsWithChars ['K', 'i'] (s ++ ['M', 'i']) = false := by
  simp [endsWithChars, takesFrom]

theorem endsMi_append_Mi (s : Str) : endsWithChars ['M', 'i'] (s ++ ['M', 'i']) = true := by
  simp [endsWithChars, takesFrom]

/-! ## Claims -/

/-- C9: the CPU parser maps 100m to 100, 2 to 2000, 500000000n to 500 and the
empty string to 0; the memory parser maps 128Mi to 128 times 1048576, 1Gi to
1073741824, 1G to 1000000000, 1024 to 1024 and the empty string to 0; and for
every input string the suffix matching is longest-first, so a string ending in
Mi is scaled by 1024 squared and never mis-parsed under the M suffix. -/
theorem parser_boundary_and_suffix :
    parse_cpu "100m".toList = some 100 ∧
    parse_cpu "2".toList = some 2000 ∧
    parse_cpu "500000000n".toList = some 500 ∧
    parse_cpu "".toList = some 0 ∧
    parse_memory "128Mi".toList = some (128 * 1048576) ∧
    parse_memory "1Gi".toList = some 1073741824 ∧
    parse_memory "1G".toList = some 1000000000 ∧
    parse_memory "1024".toList = some 1024 ∧
    parse_memory "".toList = some 0 ∧
    (∀ s : Str, parse_memory (s ++ "Mi".toList) =
      (parseFloat s).map (fun q => q * 1024 ^ 2)) := by
  refine ⟨?_, ?_, ?_, ?_, ?_, ?_, ?_, ?_, ?_, ?_⟩
  · rw [parse_cpu, if_neg (by decide), if_pos (by decide),
      show ("100m".toList).take (("100m".toList).length - 1) = "100".toList by decide,
      parseFloat_eval _ 100 0 0 (by decide)]
    norm_num
  · rw [parse_cpu, if_neg (by decide), if_neg (by decide), if_neg (by decide),
      parseFloat_eval _ 2 0 0 (by decide)]
    norm_num
  · rw [parse_cpu, if_neg (by decide), if_neg (by decide), if_pos (by decide),
      show ("500000000n".toList).take (("500000000n".toList).length - 1) = "500000000".toList
        by decide,
      parseFloat_eval _ 500000000 0 0 (by decide)]
    norm_num
  · rw [parse_cpu, if_pos (by decide)]
  · rw [parse_memory_suffix_case _ (['M', 'i'], 1024 ^ 2) (by decide) (by decide),
      show ("128Mi".toList).take (("128Mi".toList).length - ['M', 'i'].length) = "128".toList
        by decide, parseFloat_eval _ 128 0 0 (by decide)]
    norm_num
  · rw [parse_memory_suffix_case _ (['G', 'i'], 1024 ^ 3) (by decide) (by decide),
      show ("1Gi".toList).take (("1Gi".toList).length - ['G', 'i'].length) = "1".toList
        by decide, parseFloat_eval _ 1 0 0 (by decide)]
    norm_num
  · rw [parse_memory_suffix_case _ (['G'], 1000 ^ 3) (by decide) (by decide),
      show ("1G".toList).take (("1G".toList).length - ['G'].length) = "1".toList
        by decide, parseFloat_eval _ 1 0 0 (by decide)]
    norm_num
  · rw [parse_memory_nosuffix_case _ (by decide) (by decide),
      parseFloat_eval _ 1024 0 0 (by decide)]
    norm_num
  · rw [parse_memory, if_pos (by decide)]
  · intro s
    rw [show "Mi".toList = ['M', 'i'] from rfl,
      parse_memory_suffix_case _ (['M', 'i'], 1024 ^ 2) (by simp)
        (by simp [memUnits, List.find?, endsKi_append_Mi s, endsMi_append_Mi s]),
      show (s ++ ['M', 'i']).length - ['M', 'i'].length = s.length by simp,
      List.take_left]

/-- C7: with the default thresholds 10 and 30 the classified pattern is stable
when the absolute rate is below 10, linear from 10 up to but excluding 30, and
exponential from 30; the boundary rates 9.999, 10, 29.999 and 30 classify as
stable, linear, linear and exponential; and the placer chosen from the pattern
is the greedy placer for stable or linear and the refined placer for
exponential. -/
theorem pattern_classification :
    (∀ r : ℚ,
      (|r| < 10 → detect_pattern 10 30 r = "stable".toList) ∧
      (10 ≤ |r| → |r| < 30 → detect_pattern 10 30 r = "linear".toList) ∧
      (30 ≤ |r| → detect_pattern 10 30 r = "exponential".toList)) ∧
    detect_pattern 10 30 9.999 = "stable".toList ∧
    detect_pattern 10 30 10 = "linear".toList ∧
    detect_pattern 10 30 29.999 = "linear".toList ∧
    detect_pattern 10 30 30 = "exponential".toList ∧
    determine_optimal_scheduler "stable".toList = greedySchedulerName ∧
    determine_optimal_scheduler "linear".toList = greedySchedulerName ∧
    determine_optimal_scheduler "exponential".toList = refineSchedulerName := by
  have huniv : ∀ r : ℚ,
      (|r| < 10 → detect_pattern 10 30 r = "stable".toList) ∧
      (10 ≤ |r| → |r| < 30 → detect_pattern 10 30 r = "linear".toList) ∧
      (30 ≤ |r| → detect_pattern 10 30 r = "exponential".toList) := by
    intro r
    refine ⟨fun h1 => ?_, fun h1 h2 => ?_, fun h1 => ?_⟩
    · rw [detect_pattern, if_pos h1]
    · rw [detect_pattern, if_neg (not_lt.mpr h1), if_pos h2]
    · rw [detect_pattern, if_neg (not_lt.mpr (by linarith)), if_neg (not_lt.mpr h1)]
  have habs : ∀ q : ℚ, 0 ≤ q → |q| = q := fun q hq => abs_of_nonneg hq
  refine ⟨huniv, ?_, ?_, ?_, ?_, by decide, by decide, by decide⟩
  · exact (huniv 9.999).1 (by rw [habs _ (by norm_num)]; norm_num)
  · exact (huniv 10).2.1 (by rw [habs _ (by norm_num)]) (by rw [habs _ (by norm_num)]; norm_num)
  · exact (huniv 29.999).2.1 (by rw [habs _ (by norm_num)]; norm_num)
      (by rw [habs _ (by norm_num)]; norm_num)
  · exact (huniv 30).2.2 (by rw [habs _ (by norm_num)])

/-- C7 witness: the thresholds of the universal part of the classification
theorem are realised at the concrete rates 5, 15 and 45. -/
theorem pattern_classification_witness :
    detect_pattern 10 30 5 = "stable".toList ∧
    detect_pattern 10 30 15 = "linear".toList ∧
    detect_pattern 10 30 45 = "exponential".toList :=
  ⟨(pattern_classification.1 5).1 (by rw [abs_of_nonneg (by norm_num : (0:ℚ) ≤ 5)]; norm_num),
   (pattern_classification.1 15).2.1
     (by rw [abs_of_nonneg (by norm_num : (0:ℚ) ≤ 15)]; norm_num)
     (by rw [abs_of_nonneg (by norm_num : (0:ℚ) ≤ 15)]; norm_num),
   (pattern_classification.1 45).2.2
     (by rw [abs_of_nonneg (by norm_num : (0:ℚ) ≤ 45)]; norm_num)⟩

theorem consecRates_all_pos (h : List ℕ) (hall : allPredPositive h) :
    consecRates h = allStepRates h := by
  unfold consecRates allStepRates
  apply filterMap_eq_map_of
  intro pr hpr
  have h0 : pr.1 ≠ 0 := hall _ (zip_tail_fst_mem h pr hpr)
  rw [if_pos (Nat.pos_of_ne_zero h0)]

theorem consecRates_ne_nil_of_all_pos (h : List ℕ) (h3 : 3 ≤ h.length)
    (hall : allPredPositive h) : consecRates h ≠ [] := by
  rw [consecRates_all_pos h hall]
  apply List.ne_nil_of_length_pos
  simp only [allStepRates, List.length_map, List.length_zip, List.length_tail]
  omega

/-- C1 (amended): the growth-rate computation returns 0 and insufficient_data
below two samples; 100 and startup when the oldest sample is 0 and the newest
positive; 0 and no_pods when both are 0; with at least three samples and every
consecutive predecessor non-zero, the mean of all per-step percentage changes
with trend calculated (as the claim states); more generally, with at least
three samples, a non-zero oldest sample and at least one non-zero consecutive
predecessor, the mean over the steps with non-zero predecessor with trend
calculated; and the simple newest-versus-oldest rate only when the window has
exactly two samples or no step has a non-zero predecessor.  For the window
2, 3, 4 the result is 125 over 3 with trend calculated. -/
theorem growth_rate_characterization (h : List ℕ) :
    (h.length < 2 → calculate_growth_rate h = (0, "insufficient_data".toList)) ∧
    (2 ≤ h.length → h.head?.getD 0 = 0 → 0 < h.getLast?.getD 0 →
      calculate_growth_rate h = (100, "startup".toList)) ∧
    (2 ≤ h.length → h.head?.getD 0 = 0 → h.getLast?.getD 0 = 0 →
      calculate_growth_rate h = (0, "no_pods".toList)) ∧
    (3 ≤ h.length → allPredPositive h →
      calculate_growth_rate h =
        ((allStepRates h).sum / (allStepRates h).length, "calculated".toList)) ∧
    (3 ≤ h.length → h.head?.getD 0 ≠ 0 → consecRates h ≠ [] →
      calculate_growth_rate h =
        ((consecRates h).sum / (consecRates h).length, "calculated".toList)) ∧
    (2 ≤ h.length → h.head?.getD 0 ≠ 0 → (h.length = 2 ∨ consecRates h = []) →
      calculate_growth_rate h =
        (((h.getLast?.getD 0 : ℚ) - (h.head?.getD 0 : ℚ)) / (h.head?.getD 0 : ℚ) * 100,
          "simple".toList)) ∧
    calculate_growth_rate [2, 3, 4] = (125 / 3, "calculated".toList) := by
  refine ⟨fun h1 => ?_, fun hl2 hz hp => ?_, fun hl2 hz hz2 => ?_, fun h3 hall => ?_,
    fun h3 hne hr => ?_, fun hl2 hne hd => ?_, ?_⟩
  · rw [calculate_growth_rate, if_pos h1]
  · simp only [calculate_growth_rate]
    rw [if_neg (not_lt.mpr hl2), if_pos hz, if_pos hp]
  · simp only [calculate_growth_rate]
    rw [if_neg (not_lt.mpr hl2), if_pos hz, if_neg (by omega)]
  · have hl2 : 2 ≤ h.length := by omega
    have hhead : h.head?.getD 0 ≠ 0 := hall _ (head_mem_dropLast h hl2)
    simp only [calculate_growth_rate]
    rw [if_neg (not_lt.mpr hl2), if_neg hhead, if_pos h3,
      if_pos (consecRates_ne_nil_of_all_pos h h3 hall), consecRates_all_pos h hall]
  · have hl2 : 2 ≤ h.length := by omega
    simp only [calculate_growth_rate]
    rw [if_neg (not_lt.mpr hl2), if_neg hne, if_pos h3, if_pos hr]
  · simp only [calculate_growth_rate]
    rw [if_neg (not_lt.mpr hl2), if_neg hne]
    rcases hd with hd | hd
    · rw [if_neg (by omega)]
    · by_cases h3 : 3 ≤ h.length
      · rw [if_pos h3, if_neg (by simp [hd])]
      · rw [if_neg h3]
  · have hr : consecRates [2, 3, 4] = [50, 100 / 3] := by
      simp only [consecRates, List.tail_cons, List.zip_cons_cons, List.zip_nil_right,
        List.filterMap_cons, List.filterMap_nil]
      norm_num
    simp only [calculate_growth_rate]
    rw [if_neg (by norm_num), if_neg (by norm_num), if_pos (by norm_num),
      if_pos (by rw [hr]; simp), hr]
    norm_num

/-- C1 counterexample: for the window 2, 0, 4 not every consecutive
predecessor is non-zero, so the claim places it in the otherwise branch with
rate 100 and trend simple, but the code returns the mean over the single step
with non-zero predecessor, minus 100 with trend calculated. -/
theorem growth_rate_otherwise_counterexample :
    ¬ allPredPositive [2, 0, 4] ∧
    calculate_growth_rate [2, 0, 4] = (-100, "calculated".toList) ∧
    calculate_growth_rate [2, 0, 4] ≠ (100, "simple".toList) := by
  have hr : consecRates [2, 0, 4] = [-100] := by
    simp only [consecRates, List.tail_cons, List.zip_cons_cons, List.zip_nil_right,
      List.filterMap_cons, List.filterMap_nil]
    norm_num
  have hv : calculate_growth_rate [2, 0, 4] = (-100, "calculated".toList) := by
    simp only [calculate_growth_rate]
    rw [if_neg (by norm_num), if_neg (by norm_num), if_pos (by norm_num),
      if_pos (by rw [hr]; simp), hr]
    norm_num
  refine ⟨by decide, hv, ?_⟩
  rw [hv]
  intro hcontra
  have := congrArg Prod.fst hcontra
  norm_num at this

/-- C1 witness: the calculated branch of the characterization applies to the
window 2, 3, 4 and the startup branch to the window 0, 5. -/
theorem growth_rate_characterization_witness :
    calculate_growth_rate [2, 3, 4] =
      ((allStepRates [2, 3, 4]).sum / (allStepRates [2, 3, 4]).length,
        "calculated".toList) ∧
    calculate_growth_rate [0, 5] = (100, "startup".toList) :=
  ⟨(growth_rate_characterization [2, 3, 4]).2.2.2.1 (by norm_num) (by decide),
   (growth_rate_characterization [0, 5]).2.1 (by norm_num) (by decide) (by decide)⟩

/-- C6: running the decision step twice over an unchanged sample window (with
at least two samples, so that a decision is taken) chooses the same placer
both times; after the first run the cached scheduler equals the chosen placer
(the cache update is unconditional once the enumeration returns), so the
second run attempts no switch, patches zero deployments, and leaves the state
and the deployments unchanged. -/
theorem detector_step_idempotent (stableT linearT : ℚ) (w : List ℕ)
    (s0 : DetectorState) (d0 : List Deployment) (hw : 2 ≤ w.length) :
    (detector_step stableT linearT w
        (detector_step stableT linearT w s0 d0).state
        (detector_step stableT linearT w s0 d0).deployments).chosen =
      (detector_step stableT linearT w s0 d0).chosen ∧
    (detector_step stableT linearT w s0 d0).state.current_scheduler =
      (detector_step stableT linearT w s0 d0).chosen ∧
    (detector_step stableT linearT w
        (detector_step stableT linearT w s0 d0).state
        (detector_step stableT linearT w s0 d0).deployments).patched = 0 ∧
    (detector_step stableT linearT w
        (detector_step stableT linearT w s0 d0).state
        (detector_step stableT linearT w s0 d0).deployments).state =
      (detector_step stableT linearT w s0 d0).state ∧
    (detector_step stableT linearT w
        (detector_step stableT linearT w s0 d0).state
        (detector_step stableT linearT w s0 d0).deployments).deployments =
      (detector_step stableT linearT w s0 d0).deployments := by
  have hlt : ¬w.length < 2 := not_lt.mpr hw
  set optimal :=
    determine_optimal_scheduler
      (detect_pattern stableT linearT (calculate_growth_rate w).1) with hopt
  have hfirst : (detector_step stableT linearT w s0 d0).state.current_scheduler =
      some optimal := by
    rw [detector_step, if_neg hlt]
    by_cases hc : some optimal ≠ s0.current_scheduler
    · rw [if_pos hc]
    · rw [if_neg hc]
      simpa using (not_ne_iff.mp hc).symm
  have hsecond : detector_step stableT linearT w
      (detector_step stableT linearT w s0 d0).state
      (detector_step stableT linearT w s0 d0).deployments =
      StepResult.mk (detector_step stableT linearT w s0 d0).state
        (detector_step stableT linearT w s0 d0).deployments 0 (some optimal) := by
    rw [detector_step, if_neg hlt, if_neg (by rw [hfirst]; exact not_ne_iff.mpr rfl)]
  have hchosen1 : (detector_step stableT linearT w s0 d0).chosen = some optimal := by
    rw [detector_step, if_neg hlt]
    by_cases hc : some optimal ≠ s0.current_scheduler
    · rw [if_pos hc]
    · rw [if_neg hc]
  rw [hsecond]
  exact ⟨by rw [hchosen1], by rw [hfirst, hchosen1], rfl, rfl, rfl⟩

/-- C6 witness: the idempotence theorem applied to the stable window 3, 3 with
an empty cache and one user deployment. -/
theorem detector_step_idempotent_witness :
    (detector_step 10 30 [3, 3]
        (detector_step 10 30 [3, 3] (DetectorState.mk none none)
          [Deployment.mk "default".toList "app".toList none]).state
        (detector_step 10 30 [3, 3] (DetectorState.mk none none)
          [Deployment.mk "default".toList "app".toList none]).deployments).patched = 0 :=
    (detector_step_idempotent 10 30 [3, 3] (DetectorState.mk none none)
      [Deployment.mk "default".toList "app".toList none] (by norm_num)).2.2.1

theorem greedy_foldl_mem (cl : Cluster) :
    ∀ (l : List Node) (acc : Option Node × ℚ) (n : Node),
      (l.foldl (greedyFoldStep cl) acc).1 = some n → acc.1 = some n ∨ n ∈ l
  | [], _, n, h => Or.inl h
  | x :: t, acc, n, h => by
    rcases greedy_foldl_mem cl t (greedyFoldStep cl acc x) n h with h1 | h1
    · rw [greedyFoldStep] at h1
      by_cases hs : calculate_node_score cl x > acc.2
      · rw [if_pos hs] at h1
        exact Or.inr (by simp at h1; simp [h1])
      · rw [if_neg hs] at h1
        exact Or.inl h1
    · exact Or.inr (List.mem_cons_of_mem x h1)

theorem greedy_select_mem (cl : Cluster) (l : List Node) (n : Node)
    (h : greedy_select_best_node cl l = some n) : n ∈ l := by
  rcases greedy_foldl_mem cl l ((none : Option Node), (-1 : ℚ)) n h with h1 | h1
  · simp at h1
  · exact h1

theorem bestPair_foldl_mem : ∀ (rest : List (Node × ℚ)) (x : Node × ℚ),
    rest.foldl bestPairStep x ∈ x :: rest
  | [], x => by simp
  | y :: t, x => by
    rw [List.foldl_cons]
    by_cases hs : y.2 > x.2
    · rw [show bestPairStep x y = y from by rw [bestPairStep, if_pos hs]]
      rcases List.mem_cons.mp (bestPair_foldl_mem t y) with h1 | h1
      · rw [h1]; simp
      · simp [h1]
    · rw [show bestPairStep x y = x from by rw [bestPairStep, if_neg hs]]
      rcases List.mem_cons.mp (bestPair_foldl_mem t x) with h1 | h1
      · rw [h1]; simp
      · simp [h1]

theorem refine_select_spec (cl : Cluster) (l : List Node) (p : Pod) (n : Node)
    (h : refine_select_best_node cl l p = some n) :
    ∃ req, get_pod_resource_requests p = some req ∧ n ∈ l ∧
      calculate_refined_score cl n req (l.filterMap (get_node_resource_usage cl)) > 0 := by
  rw [refine_select_best_node] at h
  by_cases hl : l = []
  · rw [if_pos hl] at h
    cases h
  rw [if_neg hl] at h
  split at h
  · cases h
  case _ req hreq =>
    dsimp only [] at h
    by_cases hau : l.filterMap (get_node_resource_usage cl) = []
    · rw [if_pos hau] at h
      cases h
    rw [if_neg hau] at h
    split at h
    · cases h
    case _ x rest hsc =>
      have hfold := bestPair_foldl_mem rest x
      rw [← hsc] at hfold
      obtain ⟨a, ha, hpair⟩ := List.mem_filterMap.mp hfold
      rw [refineScorePair] at hpair
      by_cases hpos : calculate_refined_score cl a req
          (l.filterMap (get_node_resource_usage cl)) > 0
      · rw [if_pos hpos] at hpair
        have hn : (rest.foldl bestPairStep x).1 = n := by
          simpa using h
        have ha1 : a = n := by
          have := congrArg Prod.fst (Option.some.inj hpair)
          simp at this
          rw [← hn, ← this]
        subst ha1
        exact ⟨req, hreq, ha, hpos⟩
      · rw [if_neg hpos] at hpair
        cases hpair

theorem refined_score_pos_feasible (cl : Cluster) (n : Node) (req : PodRequest)
    (allU : List NodeUsage) (h : calculate_refined_score cl n req allU > 0) :
    ∃ u, get_node_resource_usage cl n = some u ∧
      req.cpu ≤ u.cpu_available ∧ req.memory ≤ u.memory_available := by
  rw [calculate_refined_score] at h
  split at h
  · simp at h
  case _ u hu =>
    by_cases hinf : u.cpu_available < req.cpu ∨ u.memory_available < req.memory
    · rw [if_pos hinf] at h
      simp at h
    · push_neg at hinf
      exact ⟨u, hu, hinf.1, hinf.2⟩

/-- C8: a node chosen by either placer passed the readiness and cordon filter:
it has a Ready condition with status True, and its unschedulable flag is
absent or false.  Nodes failing either check are removed before scoring. -/
theorem placements_ready_not_cordoned :
    (∀ (cl : Cluster) (nodes : List Node) (p : Pod) (n : Node),
      greedy_schedule_pod cl nodes p = some n →
      node_is_ready n = true ∧ node_is_schedulable n = true) ∧
    (∀ (cl : Cluster) (nodes : List Node) (p : Pod) (n : Node),
      refine_schedule_pod cl nodes p = some n →
      node_is_ready n = true ∧ node_is_schedulable n = true) := by
  constructor
  · intro cl nodes p n h
    rw [greedy_schedule_pod] at h
    by_cases hns : get_schedulable_nodes nodes = []
    · rw [if_pos hns] at h
      cases h
    rw [if_neg hns] at h
    have hmem : n ∈ get_schedulable_nodes nodes := greedy_select_mem cl _ n h
    have := (List.mem_filter.mp hmem).2
    exact Bool.and_eq_true_iff.mp this
  · intro cl nodes p n h
    rw [refine_schedule_pod] at h
    by_cases hns : get_schedulable_nodes nodes = []
    · rw [if_pos hns] at h
      cases h
    rw [if_neg hns] at h
    obtain ⟨req, _, hmem, _⟩ := refine_select_spec cl _ p n h
    have := (List.mem_filter.mp hmem).2
    exact Bool.and_eq_true_iff.mp this

/-- C3: whenever RefineLB selects a node for a pod, the available CPU of the
chosen node (allocatable minus the CPU requests of the non-terminal pods on
it) covers the CPU request of the pod and likewise for memory, so the remaining
resources after placement are never negative; and a candidate failing the
feasibility test scores 0. -/
theorem refinelb_feasibility :
    (∀ (cl : Cluster) (nodes : List Node) (p : Pod) (n : Node),
      refine_schedule_pod cl nodes p = some n →
      ∃ req u, get_pod_resource_requests p = some req ∧
        get_node_resource_usage cl n = some u ∧
        req.cpu ≤ u.cpu_available ∧ req.memory ≤ u.memory_available) ∧
    (∀ (cl : Cluster) (n : Node) (req : PodRequest) (allU : List NodeUsage) (u : NodeUsage),
      get_node_resource_usage cl n = some u →
      (u.cpu_available < req.cpu ∨ u.memory_available < req.memory) →
      calculate_refined_score cl n req allU = 0) := by
  constructor
  · intro cl nodes p n h
    rw [refine_schedule_pod] at h
    by_cases hns : get_schedulable_nodes nodes = []
    · rw [if_pos hns] at h
      cases h
    rw [if_neg hns] at h
    obtain ⟨req, hreq, _, hpos⟩ := refine_select_spec cl _ p n h
    obtain ⟨u, hu, hc, hm⟩ := refined_score_pos_feasible cl n req _ hpos
    exact ⟨req, u, hreq, hu, hc, hm⟩
  · intro cl n req allU u hu hinf
    rw [calculate_refined_score, hu]
    exact if_pos hinf

/-! ## Concrete evaluation helpers for witnesses and counterexamples -/

theorem pc_0 : parse_cpu ['0'] = some 0 := by
  rw [parse_cpu, if_neg (by decide), if_neg (by decide), if_neg (by decide),
    parseFloat_eval _ 0 0 0 (by decide)]
  norm_num

theorem pc_4 : parse_cpu "4".toList = some 4000 := by
  rw [parse_cpu, if_neg (by decide), if_neg (by decide), if_neg (by decide),
    parseFloat_eval _ 4 0 0 (by decide)]
  norm_num

theorem pc_100m : parse_cpu "100m".toList = some 100 := by
  rw [parse_cpu, if_neg (by decide), if_pos (by decide),
    show ("100m".toList).take (("100m".toList).length - 1) = "100".toList by decide,
    parseFloat_eval _ 100 0 0 (by decide)]
  norm_num

theorem pc_950m : parse_cpu "950m".toList = some 950 := by
  rw [parse_cpu, if_neg (by decide), if_pos (by decide),
    show ("950m".toList).take (("950m".toList).length - 1) = "950".toList by decide,
    parseFloat_eval _ 950 0 0 (by decide)]
  norm_num

theorem pc_1000m : parse_cpu "1000m".toList = some 1000 := by
  rw [parse_cpu, if_neg (by decide), if_pos (by decide),
    show ("1000m".toList).take (("1000m".toList).length - 1) = "1000".toList by decide,
    parseFloat_eval _ 1000 0 0 (by decide)]
  norm_num

theorem pc_500000n : parse_cpu "500000n".toList = some (1 / 2) := by
  rw [parse_cpu, if_neg (by decide), if_neg (by decide), if_pos (by decide),
    show ("500000n".toList).take (("500000n".toList).length - 1) = "500000".toList by decide,
    parseFloat_eval _ 500000 0 0 (by decide)]
  norm_num

theorem pc_125000n : parse_cpu "125000n".toList = some (1 / 8) := by
  rw [parse_cpu, if_neg (by decide), if_neg (by decide), if_pos (by decide),
    show ("125000n".toList).take (("125000n".toList).length - 1) = "125000".toList by decide,
    parseFloat_eval _ 125000 0 0 (by decide)]
  norm_num

theorem pm_0 : parse_memory ['0'] = some 0 := by
  rw [parse_memory_nosuffix_case _ (by decide) (by decide),
    parseFloat_eval _ 0 0 0 (by decide)]
  norm_num

theorem pm_1024 : parse_memory "1024".toList = some 1024 := by
  rw [parse_memory_nosuffix_case _ (by decide) (by decide),
    parseFloat_eval _ 1024 0 0 (by decide)]
  norm_num

theorem pm_8Gi : parse_memory "8Gi".toList = some 8589934592 := by
  rw [parse_memory_suffix_case _ (['G', 'i'], 1024 ^ 3) (by decide) (by decide),
    show ("8Gi".toList).take (("8Gi".toList).length - ['G', 'i'].length) = "8".toList by decide,
    parseFloat_eval _ 8 0 0 (by decide)]
  norm_num

theorem pm_1Gi : parse_memory "1Gi".toList = some 1073741824 := by
  rw [parse_memory_suffix_case _ (['G', 'i'], 1024 ^ 3) (by decide) (by decide),
    show ("1Gi".toList).take (("1Gi".toList).length - ['G', 'i'].length) = "1".toList by decide,
    parseFloat_eval _ 1 0 0 (by decide)]
  norm_num

theorem pm_1Mi : parse_memory "1Mi".toList = some 1048576 := by
  rw [parse_memory_suffix_case _ (['M', 'i'], 1024 ^ 2) (by decide) (by decide),
    show ("1Mi".toList).take (("1Mi".toList).length - ['M', 'i'].length) = "1".toList by decide,
    parseFloat_eval _ 1 0 0 (by decide)]
  norm_num

theorem pm_1Ki : parse_memory "1Ki".toList = some 1024 := by
  rw [parse_memory_suffix_case _ (['K', 'i'], 1024) (by decide) (by decide),
    show ("1Ki".toList).take (("1Ki".toList).length - ['K', 'i'].length) = "1".toList by decide,
    parseFloat_eval _ 1 0 0 (by decide)]
  norm_num

theorem pm_64Mi : parse_memory "64Mi".toList = some 67108864 := by
  rw [parse_memory_suffix_case _ (['M', 'i'], 1024 ^ 2) (by decide) (by decide),
    show ("64Mi".toList).take (("64Mi".toList).length - ['M', 'i'].length) = "64".toList
      by decide,
    parseFloat_eval _ 64 0 0 (by decide)]
  norm_num

theorem pm_128Mi : parse_memory "128Mi".toList = some 134217728 := by
  rw [parse_memory_suffix_case _ (['M', 'i'], 1024 ^ 2) (by decide) (by decide),
    show ("128Mi".toList).take (("128Mi".toList).length - ['M', 'i'].length) = "128".toList
      by decide,
    parseFloat_eval _ 128 0 0 (by decide)]
  norm_num

theorem usage_eval (cl : Cluster) (n : Node) (ca ma uc um : ℚ)
    (hca : parse_cpu (n.allocatable_cpu.getD ['0']) = some ca)
    (hma : parse_memory (n.allocatable_memory.getD ['0']) = some ma)
    (hps : podsUsage (nonTerminalPodsOn cl n.name) = some (uc, um)) :
    get_node_resource_usage cl n =
      some (NodeUsage.mk n.name ca ma uc um (ca - uc) (ma - um)
        (nonTerminalPodsOn cl n.name).length (uc / max ca 1 * 100) (um / max ma 1 * 100)) := by
  rw [get_node_resource_usage, hca, hma]
  simp only [Option.bind_eq_bind, Option.some_bind]
  rw [hps]
  rfl

theorem node_score_of_usage (cl : Cluster) (n : Node) (u : NodeUsage)
    (hu : get_node_resource_usage cl n = some u) :
    calculate_node_score cl n =
      u.cpu_available / max u.cpu_allocatable 1 * 70 +
        u.memory_available / max u.memory_allocatable 1 * 30 := by
  rw [calculate_node_score]
  split
  case _ heq => rw [heq] at hu; cases hu
  case _ u2 heq => rw [heq] at hu; rw [Option.some.inj hu]

theorem refined_score_infeasible (cl : Cluster) (n : Node) (req : PodRequest)
    (allU : List NodeUsage) (u : NodeUsage) (hu : get_node_resource_usage cl n = some u)
    (hinf : u.cpu_available < req.cpu ∨ u.memory_available < req.memory) :
    calculate_refined_score cl n req allU = 0 := by
  rw [calculate_refined_score, hu]
  exact if_pos hinf

theorem refined_score_of_feasible (cl : Cluster) (n : Node) (req : PodRequest)
    (allU : List NodeUsage) (u : NodeUsage) (hu : get_node_resource_usage cl n = some u)
    (hfeas : ¬(u.cpu_available < req.cpu ∨ u.memory_available < req.memory))
    (hlen : ¬allU.length = 0) :
    calculate_refined_score cl n req allU =
      ((u.cpu_available - req.cpu) / max u.cpu_allocatable 1 * 0.5 +
        (u.memory_available - req.memory) / max u.memory_allocatable 1 * 0.5) * 40 +
      ((100 - |(u.cpu_used + req.cpu) / max u.cpu_allocatable 1 * 100 -
          (allU.map NodeUsage.cpu_utilization).sum / allU.length|) * 0.5 +
        (100 - |(u.memory_used + req.memory) / max u.memory_allocatable 1 * 100 -
          (allU.map NodeUsage.memory_utilization).sum / allU.length|) * 0.5) * 0.3 +
      (1 - (u.pod_count : ℚ) / 110) * 20 +
      ((100 - |(u.cpu_used + req.cpu) / max u.cpu_allocatable 1 * 100 - 65|) * 0.5 +
        (100 - |(u.memory_used + req.memory) / max u.memory_allocatable 1 * 100 - 65|) * 0.5)
        * 0.1 := by
  rw [calculate_refined_score]
  split
  case _ heq => rw [heq] at hu; cases hu
  case _ u2 heq =>
    rw [heq] at hu
    cases Option.some.inj hu
    rw [if_neg hfeas, if_neg hlen]

/-! ## Concrete clusters for witnesses and counterexamples -/

/-- A healthy empty node with 4 cores and 8 gibibytes allocatable. -/
def wNode : Node :=
  Node.mk "node-a".toList [NodeCondition.mk "Ready".toList "True".toList] none
    (some "4".toList) (some "8Gi".toList)

/-- A pending pod requesting 100 millicores and 128 mebibytes. -/
def wPod : Pod :=
  Pod.mk "pod-w".toList "default".toList "Pending".toList none
    [Container.mk (some (ResourceRequests.mk (some "100m".toList) (some "128Mi".toList)))]

def wCluster : Cluster := Cluster.mk []

def wUsage : NodeUsage :=
  NodeUsage.mk "node-a".toList 4000 8589934592 0 0 4000 8589934592 0 0 0

def wReq : PodRequest := PodRequest.mk 100 134217728

theorem w_usage : get_node_resource_usage wCluster wNode = some wUsage := by
  rw [usage_eval wCluster wNode 4000 8589934592 0 0 pc_4 pm_8Gi rfl]
  norm_num [wNode, wUsage, nonTerminalPodsOn, wCluster]

theorem w_req : get_pod_resource_requests wPod = some wReq := by
  rw [get_pod_resource_requests]
  simp only [wPod, List.foldlM, Option.bind_eq_bind, Option.some_bind, Option.getD_some]
  rw [pc_100m, pm_128Mi]
  norm_num [wReq]

theorem w_score : calculate_refined_score wCluster wNode wReq [wUsage] = 2953 / 32 := by
  rw [refined_score_of_feasible wCluster wNode wReq [wUsage] wUsage w_usage
    (by norm_num [wUsage, wReq]) (by norm_num)]
  norm_num [wUsage, wReq, abs_of_nonneg, abs_of_nonpos]

theorem w_refine_select : refine_select_best_node wCluster [wNode] wPod = some wNode := by
  rw [refine_select_best_node, if_neg (by simp), w_req]
  dsimp only []
  rw [show [wNode].filterMap (get_node_resource_usage wCluster) = [wUsage] from by
      simp [List.filterMap_cons, w_usage],
    if_neg (by simp),
    show [wNode].filterMap (refineScorePair wCluster wReq [wUsage]) = [(wNode, 2953 / 32)]
      from by
        simp only [List.filterMap_cons, List.filterMap_nil, refineScorePair, w_score]
        rw [if_pos (by norm_num)]]
  rfl

theorem w_refine_schedule : refine_schedule_pod wCluster [wNode] wPod = some wNode := by
  rw [refine_schedule_pod]
  simp only [show get_schedulable_nodes [wNode] = [wNode] from by decide]
  rw [if_neg (by simp), w_refine_select]

theorem w_node_score : calculate_node_score wCluster wNode = 100 := by
  rw [node_score_of_usage wCluster wNode wUsage w_usage]
  norm_num [wUsage]

theorem w_greedy_select : greedy_select_best_node wCluster [wNode] = some wNode := by
  rw [greedy_select_best_node, List.foldl_cons, List.foldl_nil, greedyFoldStep, w_node_score]
  rw [if_pos (by norm_num)]

theorem w_greedy_schedule : greedy_schedule_pod wCluster [wNode] wPod = some wNode := by
  rw [greedy_schedule_pod]
  simp only [show get_schedulable_nodes [wNode] = [wNode] from by decide]
  rw [if_neg (by simp), w_greedy_select]

/-- A ready node whose CPU and memory are exactly exhausted by a running pod:
its greedy score is zero. -/
def zNode : Node :=
  Node.mk "node-z".toList [NodeCondition.mk "Ready".toList "True".toList] none
    (some "1000m".toList) (some "1024".toList)

def zPodOn : Pod :=
  Pod.mk "pod-z1".toList "default".toList "Running".toList (some "node-z".toList)
    [Container.mk (some (ResourceRequests.mk (some "1000m".toList) (some "1024".toList)))]

def zCluster : Cluster := Cluster.mk [zPodOn]

def zUsage : NodeUsage :=
  NodeUsage.mk "node-z".toList 1000 1024 1000 1024 0 0 1 100 100

theorem z_usage : get_node_resource_usage zCluster zNode = some zUsage := by
  have hpods : nonTerminalPodsOn zCluster zNode.name = [zPodOn] := by decide
  have hpu : podsUsage [zPodOn] = some (1000, 1024) := by
    rw [podsUsage]
    simp only [zPodOn, List.foldlM, Option.bind_eq_bind, Option.some_bind, Option.getD_some]
    rw [pc_1000m, pm_1024]
    norm_num
  rw [usage_eval zCluster zNode 1000 1024 1000 1024 pc_1000m pm_1024 (by rw [hpods, hpu])]
  norm_num [zNode, zUsage]
  decide

theorem z_node_score : calculate_node_score zCluster zNode = 0 := by
  rw [node_score_of_usage zCluster zNode zUsage z_usage]
  norm_num [zUsage]

theorem z_greedy_select : greedy_select_best_node zCluster [zNode] = some zNode := by
  rw [greedy_select_best_node, List.foldl_cons, List.foldl_nil, greedyFoldStep, z_node_score]
  rw [if_pos (by norm_num)]

theorem z_refined_score : calculate_refined_score zCluster zNode wReq [zUsage] = 0 :=
  refined_score_infeasible zCluster zNode wReq [zUsage] zUsage z_usage
    (Or.inl (by norm_num [zUsage, wReq]))

theorem greedy_fold_zero (cl : Cluster) : ∀ (t : List Node) (n : Node),
    (∀ m ∈ t, calculate_node_score cl m = 0) →
    t.foldl (greedyFoldStep cl) ((some n : Option Node), (0 : ℚ)) = (some n, 0)
  | [], _, _ => rfl
  | x :: t, n, hz => by
    rw [List.foldl_cons, greedyFoldStep, hz x (by simp), if_neg (by norm_num)]
    exact greedy_fold_zero cl t n (fun m hm => hz m (by simp [hm]))

/-- C2 counterexample: on a cluster whose only schedulable node scores zero,
GreedyLB still selects that node and binds the pod to it, because the running
best score starts at minus one; the claim says selection returns no node and
the pod stays pending. -/
theorem greedy_zero_score_counterexample :
    get_schedulable_nodes [zNode] = [zNode] ∧
    calculate_node_score zCluster zNode = 0 ∧
    greedy_schedule_pod zCluster [zNode] wPod = some zNode := by
  refine ⟨by decide, z_node_score, ?_⟩
  rw [greedy_schedule_pod]
  simp only [show get_schedulable_nodes [zNode] = [zNode] from by decide]
  rw [if_neg (by simp), z_greedy_select]

/-- C2 (amended): for RefineLB, when no schedulable candidate scores strictly
above zero the selection returns no node and the pod is left pending without a
binding; GreedyLB however returns no node only when the filtered candidate
list is empty — on a non-empty candidate list where every candidate scores
zero it selects the first candidate, since zero exceeds the initial best score
of minus one, and the pod is bound to it. -/
theorem zero_scores_selection :
    (∀ (cl : Cluster) (nodes : List Node) (p : Pod) (req : PodRequest),
      get_pod_resource_requests p = some req →
      (∀ n ∈ get_schedulable_nodes nodes,
        calculate_refined_score cl n req
          ((get_schedulable_nodes nodes).filterMap (get_node_resource_usage cl)) ≤ 0) →
      refine_schedule_pod cl nodes p = none) ∧
    (∀ (cl : Cluster) (nodes : List Node) (p : Pod) (n : Node) (t : List Node),
      get_schedulable_nodes nodes = n :: t →
      (∀ m ∈ get_schedulable_nodes nodes, calculate_node_score cl m = 0) →
      greedy_schedule_pod cl nodes p = some n) := by
  constructor
  · intro cl nodes p req hreq hle
    rw [refine_schedule_pod]
    by_cases hns : get_schedulable_nodes nodes = []
    · rw [if_pos hns]
    rw [if_neg hns, refine_select_best_node, if_neg hns, hreq]
    dsimp only []
    by_cases hau :
        (get_schedulable_nodes nodes).filterMap (get_node_resource_usage cl) = []
    · rw [if_pos hau]
    rw [if_neg hau,
      show (get_schedulable_nodes nodes).filterMap
          (refineScorePair cl req
            ((get_schedulable_nodes nodes).filterMap (get_node_resource_usage cl))) = []
        from List.filterMap_eq_nil_iff.mpr (fun a ha => by
          rw [refineScorePair, if_neg (not_lt.mpr (hle a ha))])]
  · intro cl nodes p n t hgs hz
    rw [greedy_schedule_pod]
    simp only [hgs]
    rw [if_neg (by simp), greedy_select_best_node, List.foldl_cons, greedyFoldStep,
      hz n (by rw [hgs]; simp), if_pos (by norm_num),
      greedy_fold_zero cl t n (fun m hm => hz m (by rw [hgs]; simp [hm]))]

/-- C2 witness: on the exhausted single-node cluster RefineLB leaves the pod
pending while GreedyLB, per the amendment, still binds it to the zero-scoring
node. -/
theorem zero_scores_selection_witness :
    refine_schedule_pod zCluster [zNode] wPod = none ∧
    greedy_schedule_pod zCluster [zNode] wPod = some zNode := by
  constructor
  · apply zero_scores_selection.1 zCluster [zNode] wPod wReq w_req
    intro n hn
    rw [show get_schedulable_nodes [zNode] = [zNode] from by decide] at hn ⊢
    have hn2 : n = zNode := by simpa using hn
    subst hn2
    rw [show [zNode].filterMap (get_node_resource_usage zCluster) = [zUsage] from by
      simp [List.filterMap_cons, z_usage]]
    rw [z_refined_score]
  · apply zero_scores_selection.2 zCluster [zNode] wPod zNode [] (by decide)
    intro m hm
    rw [show get_schedulable_nodes [zNode] = [zNode] from by decide] at hm
    have hm2 : m = zNode := by simpa using hm
    subst hm2
    exact z_node_score

/-- A ready node with 1000 millicores allocatable of which a running pod uses
950, leaving 50 available. -/
def oNode : Node :=
  Node.mk "node-o".toList [NodeCondition.mk "Ready".toList "True".toList] none
    (some "1000m".toList) (some "1Gi".toList)

def oPodOn : Pod :=
  Pod.mk "pod-o1".toList "default".toList "Running".toList (some "node-o".toList)
    [Container.mk (some (ResourceRequests.mk (some "950m".toList) (some "0".toList)))]

def oCluster : Cluster := Cluster.mk [oPodOn]

def oUsage : NodeUsage :=
  NodeUsage.mk "node-o".toList 1000 1073741824 950 0 50 1073741824 1 95 0

theorem o_usage : get_node_resource_usage oCluster oNode = some oUsage := by
  have hpods : nonTerminalPodsOn oCluster oNode.name = [oPodOn] := by decide
  have hpu : podsUsage [oPodOn] = some (950, 0) := by
    rw [podsUsage]
    simp only [oPodOn, List.foldlM, Option.bind_eq_bind, Option.some_bind, Option.getD_some]
    rw [pc_950m, show parse_memory "0".toList = some 0 from pm_0]
    norm_num
  rw [usage_eval oCluster oNode 1000 1073741824 950 0 pc_1000m pm_1Gi (by rw [hpods, hpu])]
  norm_num [oNode, oUsage]
  decide

theorem o_node_score : calculate_node_score oCluster oNode = 67 / 2 := by
  rw [node_score_of_usage oCluster oNode oUsage o_usage]
  norm_num [oUsage]

theorem o_greedy_schedule : greedy_schedule_pod oCluster [oNode] wPod = some oNode := by
  rw [greedy_schedule_pod]
  simp only [show get_schedulable_nodes [oNode] = [oNode] from by decide]
  rw [if_neg (by simp), greedy_select_best_node, List.foldl_cons, List.foldl_nil,
    greedyFoldStep, o_node_score, if_pos (by norm_num)]

/-- C10: the GreedyLB node choice never reads the pod being scheduled, so for a
fixed cluster state any two pods are assigned the same node; consequently it
can bind a pod to a node whose available CPU is smaller than the request of
the pod, as on the overcommitted single-node cluster where 50 millicores are
available and the pod requests 100. -/
theorem greedylb_pod_blind :
    (∀ (cl : Cluster) (nodes : List Node) (p1 p2 : Pod),
      greedy_schedule_pod cl nodes p1 = greedy_schedule_pod cl nodes p2) ∧
    greedy_schedule_pod oCluster [oNode] wPod = some oNode ∧
    get_pod_resource_requests wPod = some wReq ∧
    get_node_resource_usage oCluster oNode = some oUsage ∧
    oUsage.cpu_available < wReq.cpu :=
  ⟨fun _ _ _ _ => rfl, o_greedy_schedule, w_req, o_usage, by norm_num [oUsage, wReq]⟩

/-- C3 witness: the feasibility theorem applied to the healthy single-node
cluster on which RefineLB binds the witness pod. -/
theorem refinelb_feasibility_witness :
    ∃ req u, get_pod_resource_requests wPod = some req ∧
      get_node_resource_usage wCluster wNode = some u ∧
      req.cpu ≤ u.cpu_available ∧ req.memory ≤ u.memory_available :=
  refinelb_feasibility.1 wCluster [wNode] wPod wNode w_refine_schedule

/-- C8 witness: the readiness theorem applied to a RefineLB placement on the
healthy cluster and to a GreedyLB placement on the overcommitted cluster. -/
theorem placements_ready_not_cordoned_witness :
    (node_is_ready wNode = true ∧ node_is_schedulable wNode = true) ∧
    (node_is_ready oNode = true ∧ node_is_schedulable oNode = true) :=
  ⟨placements_ready_not_cordoned.2 wCluster [wNode] wPod wNode w_refine_schedule,
   placements_ready_not_cordoned.1 oCluster [oNode] wPod oNode o_greedy_schedule⟩

/-- Follows the claim wording for the RefineLB score: the same four
contributions but with the plain allocatable quantities as denominators in
the after-placement ratios and the utilisation percentages, stated separately
for comparison with the implementation. -/
def spec_refined_score (cl : Cluster) (n : Node) (req : PodRequest)
    (allUsage : List NodeUsage) : ℚ :=
  match get_node_resource_usage cl n with
  | none => 0
  | some u =>
    if u.cpu_available < req.cpu ∨ u.memory_available < req.memory then 0
    else if allUsage.length = 0 then 0
    else
      let cpu_after := (u.cpu_available - req.cpu) / u.cpu_allocatable
      let mem_after := (u.memory_available - req.memory) / u.memory_allocatable
      let new_cpu_util := (u.cpu_used + req.cpu) / u.cpu_allocatable * 100
      let new_mem_util := (u.memory_used + req.memory) / u.memory_allocatable * 100
      let avg_cpu_util := (allUsage.map NodeUsage.cpu_utilization).sum / allUsage.length
      let avg_mem_util := (allUsage.map NodeUsage.memory_utilization).sum / allUsage.length
      let cpu_balance := 100 - |new_cpu_util - avg_cpu_util|
      let mem_balance := 100 - |new_mem_util - avg_mem_util|
      (cpu_after * 0.5 + mem_after * 0.5) * 40 +
        (cpu_balance * 0.5 + mem_balance * 0.5) * 0.3 +
        (1 - (u.pod_count : ℚ) / 110) * 20 +
        ((100 - |new_cpu_util - 65|) * 0.5 + (100 - |new_mem_util - 65|) * 0.5) * 0.1

theorem spec_refined_score_of_feasible (cl : Cluster) (n : Node) (req : PodRequest)
    (allU : List NodeUsage) (u : NodeUsage) (hu : get_node_resource_usage cl n = some u)
    (hfeas : ¬(u.cpu_available < req.cpu ∨ u.memory_available < req.memory))
    (hlen : ¬allU.length = 0) :
    spec_refined_score cl n req allU =
      ((u.cpu_available - req.cpu) / u.cpu_allocatable * 0.5 +
        (u.memory_available - req.memory) / u.memory_allocatable * 0.5) * 40 +
      ((100 - |(u.cpu_used + req.cpu) / u.cpu_allocatable * 100 -
          (allU.map NodeUsage.cpu_utilization).sum / allU.length|) * 0.5 +
        (100 - |(u.memory_used + req.memory) / u.memory_allocatable * 100 -
          (allU.map NodeUsage.memory_utilization).sum / allU.length|) * 0.5) * 0.3 +
      (1 - (u.pod_count : ℚ) / 110) * 20 +
      ((100 - |(u.cpu_used + req.cpu) / u.cpu_allocatable * 100 - 65|) * 0.5 +
        (100 - |(u.memory_used + req.memory) / u.memory_allocatable * 100 - 65|) * 0.5)
        * 0.1 := by
  rw [spec_refined_score]
  split
  case _ heq => rw [heq] at hu; cases hu
  case _ u2 heq =>
    rw [heq] at hu
    cases Option.some.inj hu
    rw [if_neg hfeas, if_neg hlen]

/-- C4 (amended): for every candidate whose usage is readable and whose
allocatable CPU is at least one millicore and allocatable memory at least one
byte, the implementation score equals the four-contribution formula of the
claim;
in general the implementation divides by max(allocatable, 1), not by the
allocatable quantity itself. -/
theorem refined_score_formula (cl : Cluster) (n : Node) (req : PodRequest)
    (allU : List NodeUsage) (u : NodeUsage) (hu : get_node_resource_usage cl n = some u)
    (hc : 1 ≤ u.cpu_allocatable) (hm : 1 ≤ u.memory_allocatable) :
    calculate_refined_score cl n req allU = spec_refined_score cl n req allU := by
  simp only [calculate_refined_score, spec_refined_score, hu]
  rw [max_eq_left hc, max_eq_left hm]

/-- C4 witness: on the healthy four-core node the implementation score and the
formula of the claim coincide. -/
theorem refined_score_formula_witness :
    calculate_refined_score wCluster wNode wReq [wUsage] =
      spec_refined_score wCluster wNode wReq [wUsage] :=
  refined_score_formula wCluster wNode wReq [wUsage] wUsage w_usage
    (by norm_num [wUsage]) (by norm_num [wUsage])

/-- A ready node whose allocatable CPU string 500000n parses to half a
millicore, below the max(allocatable, 1) guard. -/
def fNode : Node :=
  Node.mk "node-f".toList [NodeCondition.mk "Ready".toList "True".toList] none
    (some "500000n".toList) (some "1Mi".toList)

def fCluster : Cluster := Cluster.mk []

def fUsage : NodeUsage :=
  NodeUsage.mk "node-f".toList (1 / 2) 1048576 0 0 (1 / 2) 1048576 0 0 0

/-- A pod requesting an eighth of a millicore (125000n) and one kibibyte. -/
def fPod : Pod :=
  Pod.mk "pod-f".toList "default".toList "Pending".toList none
    [Container.mk (some (ResourceRequests.mk (some "125000n".toList) (some "1Ki".toList)))]

def fReq : PodRequest := PodRequest.mk (1 / 8) 1024

theorem f_usage : get_node_resource_usage fCluster fNode = some fUsage := by
  rw [usage_eval fCluster fNode (1 / 2) 1048576 0 0 pc_500000n pm_1Mi rfl]
  norm_num [fNode, fUsage, nonTerminalPodsOn, fCluster]

theorem f_req : get_pod_resource_requests fPod = some fReq := by
  rw [get_pod_resource_requests]
  simp only [fPod, List.foldlM, Option.bind_eq_bind, Option.some_bind, Option.getD_some]
  rw [pc_125000n, pm_1Ki]
  norm_num [fReq]

/-- C4 counterexample: the node whose allocatable CPU parses to half a
millicore is a feasible candidate for the eighth-of-a-millicore pod, and the
implementation score (dividing by max(1/2, 1) = 1) differs from the formula
of the claim (dividing by the allocatable 1/2). -/
theorem refined_score_formula_counterexample :
    get_pod_resource_requests fPod = some fReq ∧
    get_node_resource_usage fCluster fNode = some fUsage ∧
    ¬(fUsage.cpu_available < fReq.cpu ∨ fUsage.memory_available < fReq.memory) ∧
    calculate_refined_score fCluster fNode fReq [fUsage] ≠
      spec_refined_score fCluster fNode fReq [fUsage] := by
  refine ⟨f_req, f_usage, by norm_num [fUsage, fReq], ?_⟩
  rw [refined_score_of_feasible fCluster fNode fReq [fUsage] fUsage f_usage
    (by norm_num [fUsage, fReq]) (by norm_num),
    spec_refined_score_of_feasible fCluster fNode fReq [fUsage] fUsage f_usage
    (by norm_num [fUsage, fReq]) (by norm_num)]
  norm_num [fUsage, fReq, abs_of_nonneg, abs_of_nonpos]

/-- Follows the claim wording for the pod resource request: sum the declared
container CPU and memory requests (a container with no requests map, or a map
omitting the key, contributes nothing), then apply the pod-level defaults of
100 millicores and 128 mebibytes to a zero sum. -/
def claimed_pod_requests (p : Pod) : Option PodRequest := do
  let sums ← p.containers.foldlM (fun (acc : ℚ × ℚ) c =>
    match c.resources with
    | none => some acc
    | some r => do
      let cv ← match r.cpu with
        | none => some 0
        | some s => parse_cpu s
      let mv ← match r.memory with
        | none => some 0
        | some s => parse_memory s
      some (acc.1 + cv, acc.2 + mv)) ((0 : ℚ), (0 : ℚ))
  some ⟨if sums.1 = 0 then 100 else sums.1,
        if sums.2 = 0 then 128 * 1024 * 1024 else sums.2⟩

theorem foldlM_option_congr {α β : Type _} :
    ∀ (l : List α) (f g : β → α → Option β),
      (∀ x ∈ l, ∀ b, f b x = g b x) → ∀ b, l.foldlM f b = l.foldlM g b
  | [], _, _, _, _ => rfl
  | x :: t, f, g, hfg, b => by
    simp only [List.foldlM]
    rw [hfg x (by simp) b]
    cases hv : g b x with
    | none => rfl
    | some b2 =>
      simp only [Option.bind_eq_bind, Option.some_bind]
      exact foldlM_option_congr t f g (fun y hy b3 => hfg y (by simp [hy]) b3) b2

/-- A pod with two containers whose requests maps declare memory but omit the
cpu key. -/
def c5Pod : Pod :=
  Pod.mk "pod-c5".toList "default".toList "Pending".toList none
    [Container.mk (some (ResourceRequests.mk none (some "64Mi".toList))),
     Container.mk (some (ResourceRequests.mk none (some "64Mi".toList)))]

/-- C5 counterexample: for the two-container pod that omits the cpu key in
both requests maps, the declared CPU sum is zero and the claim requires the
default 100 millicores, but the per-container fallback of the implementation
contributes 100 millicores per container, returning 200. -/
theorem pod_requests_counterexample :
    get_pod_resource_requests c5Pod = some (PodRequest.mk 200 134217728) ∧
    claimed_pod_requests c5Pod = some (PodRequest.mk 100 134217728) ∧
    (200 : ℚ) ≠ 100 := by
  refine ⟨?_, ?_, by norm_num⟩
  · rw [get_pod_resource_requests]
    simp only [c5Pod, List.foldlM, Option.bind_eq_bind, Option.some_bind, Option.getD_none,
      Option.getD_some]
    rw [pc_100m, pm_64Mi]
    norm_num
  · rw [claimed_pod_requests]
    simp only [c5Pod, List.foldlM, Option.bind_eq_bind, Option.some_bind]
    rw [pm_64Mi]
    norm_num

/-- C5 (amended): the per-container parse of the implementation falls back to the
strings 100m and 128Mi when a requests map is present but omits a key, so the
description of the claim — sum the declared requests, then apply pod-level defaults
to a zero sum — holds exactly for the pods in which every container either has
no requests map or declares both keys. -/
theorem pod_requests_agree (p : Pod)
    (hp : ∀ c ∈ p.containers, ∀ r, c.resources = some r →
      r.cpu ≠ none ∧ r.memory ≠ none) :
    get_pod_resource_requests p = claimed_pod_requests p := by
  rw [get_pod_resource_requests, claimed_pod_requests]
  rw [foldlM_option_congr p.containers _ _ ?_ ((0 : ℚ), (0 : ℚ))]
  intro c hc b
  cases hres : c.resources with
  | none => rfl
  | some r =>
    obtain ⟨hcpu, hmem⟩ := hp c hc r hres
    cases hcv : r.cpu with
    | none => exact absurd hcv hcpu
    | some cs =>
      cases hmv : r.memory with
      | none => exact absurd hmv hmem
      | some ms => simp only [hcv, hmv, Option.getD_some]

/-- C5 witness: the agreement theorem applied to the witness pod, whose single
container declares both keys. -/
theorem pod_requests_agree_witness :
    get_pod_resource_requests wPod = claimed_pod_requests wPod :=
  pod_requests_agree wPod (by
    intro c hc r hr
    simp only [wPod, List.mem_singleton] at hc
    subst hc
    cases Option.some.inj hr
    exact ⟨by simp, by simp⟩)

end CcnCep
